import Mathlib

/-!
# Verification of the DueDiligenceTask retrieval/agent core

Shallow embedding of the repository's vector store
(`src/backend/src/storage/faiss_store.py`), layered index manager
(`src/backend/src/indexing/manager.py`), retrieval services
(`src/backend/src/services/retrieval/`), embedding service
(`src/backend/src/services/embedding_service.py`), ingestion pipeline
(`src/backend/src/services/ingestion/pipeline.py`) and the LangGraph agent
loop (`src/backend/src/services/agent/`), together with proofs of the
specification's claims about them.

External collaborators (the Google embedding API, the reasoning LLM, the
relational database) are modelled as explicit oracle parameters; machine
floats are modelled as rationals; Python dicts that are only ever extended
with fresh keys are modelled as association lists.
-/

namespace DueDiligence

/-! ## Vector store: `FAISSStore` (src/backend/src/storage/faiss_store.py)

The store wraps a `faiss.IndexFlatL2`: a flat list of vectors searched by
exact squared-Euclidean distance, plus an integer-to-string id mapping
(`id_map`).  FAISS assigns internal ids by insertion position; the Python
code mirrors this by allocating `max(id_map.keys()) + 1` onwards.
-/

/-- Decidable equality on `Except`, used to evaluate concrete outcomes of
fallible operations. -/
instance {ε : Type _} {α : Type _} [DecidableEq ε] [DecidableEq α] :
    DecidableEq (Except ε α) := fun x y =>
  match x, y with
  | .ok a, .ok b =>
    if h : a = b then .isTrue (congrArg Except.ok h)
    else .isFalse (fun hc => h (Except.ok.inj hc))
  | .error a, .error b =>
    if h : a = b then .isTrue (congrArg Except.error h)
    else .isFalse (fun hc => h (Except.error.inj hc))
  | .ok _, .error _ => .isFalse (fun hc => Except.noConfusion hc)
  | .error _, .ok _ => .isFalse (fun hc => Except.noConfusion hc)

/-- An embedding vector (Python `List[float]`, modelled over `ℚ`). -/
abbrev Vec := List ℚ

/-- Exact squared Euclidean distance, as computed by `faiss.IndexFlatL2`. -/
def l2sq (u v : Vec) : ℚ :=
  ((u.zip v).map (fun p => (p.1 - p.2) * (p.1 - p.2))).sum

/-- In-memory state of `FAISSStore`: the flat vector list (`self.index`,
position = FAISS internal id) and the id mapping (`self.id_map`, kept as an
insertion-ordered association list; the Python dict only ever receives fresh
keys).  `reverse_id_map` is derived data and not carried. -/
structure FAISSStore where
  dimension : Nat
  vectors : List Vec
  id_map : List (Nat × String)
deriving Repr, DecidableEq

/-- `FAISSStore._create_new_index`: empty index and mapping. -/
def FAISSStore.emptyStore (d : Nat) : FAISSStore :=
  { dimension := d, vectors := [], id_map := [] }

/-- `FAISSStore.add_vectors`.  Raises `ValueError` when the lengths differ
(before any mutation), returns unchanged on an empty vector list, otherwise
allocates internal ids from `max(id_map.keys()) + 1` (0 on an empty map),
appends the vectors and extends the mapping. -/
def FAISSStore.add_vectors (s : FAISSStore) (vectors : List Vec)
    (ids : List String) : Except String FAISSStore :=
  if vectors.length ≠ ids.length then
    .error "Number of vectors and IDs must match"
  else if vectors.isEmpty then .ok s
  else
    let start_id : Nat :=
      if s.id_map.isEmpty then 0
      else ((s.id_map.map Prod.fst).foldr max 0) + 1
    let new_ids := List.range' start_id ids.length
    .ok { s with
          vectors := s.vectors ++ vectors,
          id_map := s.id_map ++ new_ids.zip ids }

/-- Ordering used by the exact k-NN scan: compare by distance. -/
def distLE (a b : Nat × ℚ) : Prop := a.2 ≤ b.2

instance : DecidableRel distLE := fun a b =>
  inferInstanceAs (Decidable (a.2 ≤ b.2))

instance : IsTotal (Nat × ℚ) distLE := ⟨fun a b => le_total a.2 b.2⟩

instance : IsTrans (Nat × ℚ) distLE := ⟨fun _ _ _ => le_trans⟩

/-- Distances of the query to every stored vector, by internal id
(the brute-force scan performed by `IndexFlatL2.search`). -/
def scoreAll (vecs : List Vec) (q : Vec) : List (Nat × ℚ) :=
  (List.range vecs.length).map (fun i => (i, l2sq q (vecs.getD i [])))

/-- `faiss.IndexFlatL2.search`: the `k` nearest (internal id, distance)
pairs in ascending distance order (stable on ties, earlier id first).
When fewer than `k` vectors exist FAISS pads with `-1` ids, which the
Python wrapper filters out; taking at most `k` real entries is the same. -/
def faissRawSearch (vecs : List Vec) (q : Vec) (k : Nat) : List (Nat × ℚ) :=
  (List.insertionSort distLE (scoreAll vecs q)).take k

/-- `FAISSStore.search`: empty index short-circuits to an empty result;
otherwise raw FAISS hits are mapped back to string ids, silently dropping
internal ids absent from `id_map`. -/
def FAISSStore.search (s : FAISSStore) (q : Vec) (k : Nat) :
    List (String × ℚ) :=
  if s.vectors.length = 0 then []
  else
    (faissRawSearch s.vectors q k).filterMap
      (fun p => (s.id_map.lookup p.1).map (fun sid => (sid, p.2)))

/-- `FAISSStore.clear`: reset to a fresh empty index. -/
def FAISSStore.clear (s : FAISSStore) : FAISSStore :=
  FAISSStore.emptyStore s.dimension

/-- The spec's `VectorRecord` invariant, first half: the id mapping is a
bijection (internal keys pairwise distinct and external ids pairwise
distinct). -/
def mappingBijective (m : List (Nat × String)) : Prop :=
  (m.map Prod.fst).Nodup ∧ (m.map Prod.snd).Nodup

instance (m : List (Nat × String)) : Decidable (mappingBijective m) :=
  inferInstanceAs (Decidable (_ ∧ _))

/-- The spec's `VectorRecord` invariant: bijective mapping and
`index.ntotal == len(id_map)`. -/
def FAISSStore.consistent (s : FAISSStore) : Prop :=
  mappingBijective s.id_map ∧ s.vectors.length = s.id_map.length

instance (s : FAISSStore) : Decidable s.consistent :=
  inferInstanceAs (Decidable (_ ∧ _))

/-- One externally drivable operation on a store instance. -/
inductive StoreOp where
  | add (vectors : List Vec) (ids : List String)
  | search (q : Vec) (k : Nat)
  | clear
deriving Repr

/-- Effect of one operation on the in-memory state.  A failing `add`
raises before any mutation, so the state is unchanged; `search` does not
mutate. -/
def FAISSStore.applyOp (s : FAISSStore) : StoreOp → FAISSStore
  | .add vectors ids =>
      match s.add_vectors vectors ids with
      | .ok s' => s'
      | .error _ => s
  | .search _ _ => s
  | .clear => s.clear

/-- Effect of a sequence of operations. -/
def FAISSStore.applyOps (s : FAISSStore) : List StoreOp → FAISSStore
  | [] => s
  | op :: ops => (s.applyOp op).applyOps ops

/-- An `add` is *fresh* when its external ids are pairwise distinct and not
yet present in the mapping.  (The Python code never checks this.) -/
def freshAdd (s : FAISSStore) : StoreOp → Prop
  | .add _ ids => ids.Nodup ∧ ∀ i ∈ ids, i ∉ s.id_map.map Prod.snd
  | .search _ _ => True
  | .clear => True

instance (s : FAISSStore) (op : StoreOp) : Decidable (freshAdd s op) :=
  match op with
  | .add _ ids =>
      inferInstanceAs (Decidable (ids.Nodup ∧ ∀ i ∈ ids, i ∉ s.id_map.map Prod.snd))
  | .search _ _ => inferInstanceAs (Decidable True)
  | .clear => inferInstanceAs (Decidable True)

/-- Every `add` in the sequence is fresh for the state it executes in. -/
def freshOps (s : FAISSStore) : List StoreOp → Prop
  | [] => True
  | op :: ops => freshAdd s op ∧ freshOps (s.applyOp op) ops

instance freshOpsDec : (s : FAISSStore) → (ops : List StoreOp) →
    Decidable (freshOps s ops)
  | _, [] => .isTrue trivial
  | s, op :: ops =>
      have : Decidable (freshOps (s.applyOp op) ops) := freshOpsDec _ ops
      inferInstanceAs (Decidable (_ ∧ _))

/-! ## Retrieved chunks and agent state
(src/backend/src/services/retrieval/__init__.py,
 src/backend/src/services/agent/state.py)

`bounding_box` is an opaque JSON dict in the source; it is carried as an
optional string-keyed placeholder and never inspected by the agent loop,
so it is modelled as an optional tag. -/

/-- `RetrievedChunk`: a hydrated search hit. -/
structure RetrievedChunk where
  id : String
  text : String
  score : ℚ
  document_id : String
  filename : String
  page_number : Option Nat := none
  bounding_box : Option String := none
deriving Repr, DecidableEq

/-- `AgentState` (TypedDict): the LangGraph run state. -/
structure AgentState where
  question : String
  project_id : String
  document_ids : Option (List String)
  documents : List RetrievedChunk
  generation : Option String
  is_answerable : Bool
  confidence_score : ℚ
  retries : Nat
  max_retries : Nat
  errors : List String
  steps : List String
  feedback : Option String
deriving Repr, DecidableEq

/-- Python truthiness of `Optional[str]`: falsy iff `None` or `""`. -/
def strFalsy : Option String → Bool
  | none => true
  | some s => s == ""

/-! ## Agent nodes (src/backend/src/services/agent/nodes/)

The reasoning collaborator (`LLMService.generate_structured`) is an oracle
parameter.  Each node returns a partial state update in the source; here
the update is applied to the state directly, which is what LangGraph does
with the returned dict. -/

/-- Structured output schema of `generate_node`
(`GeneratedResponse`): answer text, answerability flag, confidence, and
1-based cited indices (Python ints, hence `Int`). -/
structure GeneratedResponse where
  answer : String
  is_answerable : Bool
  confidence_score : ℚ
  cited_indices : List Int
deriving Repr, DecidableEq

/-- `generate_node`.  Empty candidate list short-circuits to the fixed
"no relevant information" response without consulting the collaborator;
otherwise the collaborator's structured reply is installed and the
candidate list is narrowed to the cited indices; a collaborator exception
is caught and converted into a fixed error generation (the exception
message is logged only — it is not stored in the state). -/
def generate_node (llmResp : Except String GeneratedResponse)
    (s : AgentState) : AgentState :=
  if s.documents.isEmpty then
    { s with
      generation := some "I'm sorry, I couldn't find any relevant information to answer this question.",
      is_answerable := false,
      confidence_score := 0,
      steps := s.steps ++ ["generate"] }
  else
    match llmResp with
    | .ok r =>
        { s with
          generation := some r.answer,
          is_answerable := r.is_answerable,
          confidence_score := r.confidence_score,
          documents :=
            (r.cited_indices.filter
              (fun i => 0 < i && i ≤ (s.documents.length : Int))).filterMap
              (fun i => s.documents.get? (i - 1).toNat),
          steps := s.steps ++ ["generate"] }
    | .error _ =>
        { s with
          generation := some "Error during answer generation.",
          is_answerable := false,
          confidence_score := 0,
          steps := s.steps ++ ["generate"] }

/-- `hallucination_node` (the VERIFY step).  If the generation or the
candidate list is falsy the collaborator is skipped and the generation is
declared grounded; otherwise the collaborator's binary verdict
(`llmGrounded`) is installed and the retry counter is incremented exactly
when the verdict is "not grounded". -/
def hallucination_node (llmGrounded : Bool) (s : AgentState) : AgentState :=
  if strFalsy s.generation || s.documents.isEmpty then
    { s with
      steps := s.steps ++ ["check_hallucinations"],
      is_answerable := true }
  else
    { s with
      steps := s.steps ++ ["check_hallucinations"],
      is_answerable := llmGrounded,
      retries := s.retries + (if llmGrounded then 0 else 1) }

/-- Outcome of the conditional edge after the hallucination check
(src/backend/src/services/agent/graph.py). -/
inductive VerifyRoute where
  | useful
  | not_grounded
deriving Repr, DecidableEq

/-- `grade_generation_v_documents_and_question`: route `useful` when the
state is grounded, otherwise retry while `retries < max_retries`, else
give up and route `useful` anyway. -/
def grade_generation_v_documents_and_question (s : AgentState) : VerifyRoute :=
  if s.is_answerable then .useful
  else if s.retries < s.max_retries then .not_grounded
  else .useful

/-- Nodes of the compiled graph (plus the END sentinel). -/
inductive GraphNode where
  | retrieve
  | grade_documents
  | generate
  | hallucination_check
  | endNode
deriving Repr, DecidableEq

/-- The conditional-edge table after `hallucination_check`:
`"not grounded" ↦ generate`, `"useful" ↦ END` (graph.py, create_rag_graph). -/
def hallucinationNext (s : AgentState) : GraphNode :=
  match grade_generation_v_documents_and_question s with
  | .not_grounded => .generate
  | .useful => .endNode

/-- Number of `generate` invocations performed by the
GENERATE → VERIFY → {GENERATE | END} cycle, starting from retry counter
`r` with budget `m`, where `oracle r` is the grounding verdict the
collaborator returns for the attempt made at counter value `r`.
One generation happens; if its verdict is grounded the run ends, otherwise
the counter becomes `r + 1` and the loop re-enters `generate` exactly when
`r + 1 < m`. -/
def genAttempts (oracle : Nat → Bool) (m r : Nat) : Nat :=
  if oracle r then 1
  else if _h : r + 1 < m then 1 + genAttempts oracle m (r + 1)
  else 1
termination_by m - r
decreasing_by omega

/-! ## Embedding service (src/backend/src/services/embedding_service.py)

The Google collaborator is an oracle; alongside the result, each function
also returns the trace of collaborator calls it performed, so that
"the collaborator is never called with blank input" is a statement about
the trace. -/

/-- Python `str.isspace`-style whitespace test over the characters
`str.strip()` removes. -/
def pyIsSpace (c : Char) : Bool :=
  c == ' ' || c == '\t' || c == '\n' || c == '\x0b' || c == '\x0c' || c == '\r'

/-- Python `not text or not text.strip()`: empty or whitespace-only
(stated over the character list underlying the string). -/
def isBlank (s : String) : Bool := s.data.all pyIsSpace

/-- One call issued to the Google embedding collaborator. -/
inductive EmbCall where
  | batchCall (texts : List String)
  | singleCall (text : String)
deriving Repr, DecidableEq

/-- Errors surfaced by the embedding service: `ValueError` raised before
any collaborator call, or `RuntimeError` wrapping a collaborator failure. -/
inductive EmbError where
  | validation (msg : String)
  | runtime (msg : String)
deriving Repr, DecidableEq

/-- `EmbeddingService.generate_embedding`: reject blank input before any
collaborator call, otherwise call once and wrap failures in
`RuntimeError`. -/
def generate_embedding (oracle : String → Except String Vec)
    (text : String) : Except EmbError Vec × List EmbCall :=
  if isBlank text then
    (.error (.validation "Cannot generate embedding for empty text"), [])
  else
    match oracle text with
    | .ok v => (.ok v, [.singleCall text])
    | .error e => (.error (.runtime e), [.singleCall text])

/-- `EmbeddingService.generate_query_embedding`: same shape as
`generate_embedding` with a query-specific error message. -/
def generate_query_embedding (oracle : String → Except String Vec)
    (query : String) : Except EmbError Vec × List EmbCall :=
  if isBlank query then
    (.error (.validation "Cannot generate embedding for empty query"), [])
  else
    match oracle query with
    | .ok v => (.ok v, [.singleCall query])
    | .error e => (.error (.runtime e), [.singleCall query])

/-- The sanitisation line of `generate_embeddings_batch`:
`[t if (t and t.strip()) else " " for t in batch]`. -/
def sanitizeBatch (b : List String) : List String :=
  b.map (fun t => if isBlank t then " " else t)

/-- Per-text fallback after a failed batch call: blank texts get a zero
vector without any call, non-blank texts go through
`generate_embedding`; an exception aborts the loop and propagates. -/
def fallbackSingles (oracleS : String → Except String Vec) (dim : Nat) :
    List String → Except EmbError (List Vec) × List EmbCall
  | [] => (.ok [], [])
  | t :: ts =>
    if isBlank t then
      match fallbackSingles oracleS dim ts with
      | (.ok vs, calls) => (.ok (List.replicate dim 0 :: vs), calls)
      | (.error e, calls) => (.error e, calls)
    else
      match generate_embedding oracleS t with
      | (.ok v, calls) =>
        match fallbackSingles oracleS dim ts with
        | (.ok vs, calls') => (.ok (v :: vs), calls ++ calls')
        | (.error e, calls') => (.error e, calls ++ calls')
      | (.error e, calls) => (.error e, calls)

/-- One iteration of the batch loop: sanitise the batch, try the batched
collaborator call, and on failure fall back to single calls. -/
def processBatch (oracleB : List String → Except String (List Vec))
    (oracleS : String → Except String Vec) (dim : Nat) (b : List String) :
    Except EmbError (List Vec) × List EmbCall :=
  match oracleB (sanitizeBatch b) with
  | .ok embs => (.ok embs, [.batchCall (sanitizeBatch b)])
  | .error _ =>
    match fallbackSingles oracleS dim b with
    | (r, calls) => (r, .batchCall (sanitizeBatch b) :: calls)

/-- The batch loop over the `batch_size`-sized slices of the input. -/
def runBatches (oracleB : List String → Except String (List Vec))
    (oracleS : String → Except String Vec) (dim : Nat) :
    List (List String) → Except EmbError (List Vec) × List EmbCall
  | [] => (.ok [], [])
  | b :: bs =>
    match processBatch oracleB oracleS dim b with
    | (.ok embs, calls) =>
      match runBatches oracleB oracleS dim bs with
      | (.ok rest, calls') => (.ok (embs ++ rest), calls ++ calls')
      | (.error e, calls') => (.error e, calls ++ calls')
    | (.error e, calls) => (.error e, calls)

/-- `EmbeddingService.generate_embeddings_batch`: reject an empty list
before any call, then process `batch_size`-sized slices. -/
def generate_embeddings_batch (oracleB : List String → Except String (List Vec))
    (oracleS : String → Except String Vec) (dim : Nat)
    (texts : List String) (batch_size : Nat := 100) :
    Except EmbError (List Vec) × List EmbCall :=
  if texts.isEmpty then
    (.error (.validation "Cannot generate embeddings for empty list"), [])
  else runBatches oracleB oracleS dim (texts.toChunks batch_size)

/-- A collaborator call that never carries blank input: batched calls hold
only non-empty strings (blank elements were replaced by the placeholder),
single calls hold only non-blank strings. -/
def callNeverBlank : EmbCall → Prop
  | .batchCall ts => ∀ t ∈ ts, t ≠ ""
  | .singleCall t => isBlank t = false

/-! ## Projects and the layered index manager
(src/backend/src/models/project.py, src/backend/src/indexing/manager.py,
 src/backend/src/indexing/layers/semantic.py,
 src/backend/src/indexing/layers/citation.py) -/

/-- `ProjectStatus` enum. -/
inductive ProjectStatus where
  | DRAFT | PROCESSING | READY | REVIEW | COMPLETED | OUTDATED
deriving Repr, DecidableEq

/-- `ScopeType` enum. -/
inductive ScopeType where
  | ALL_DOCS | SPECIFIC
deriving Repr, DecidableEq

/-- The project fields touched by the invalidation pass (`updated_at`
modelled as a tick counter). -/
structure Project where
  id : String
  scope_type : ScopeType
  status : ProjectStatus
  updated_at : Nat
deriving Repr, DecidableEq

/-- Effect of `IndexManager._invalidate_all_docs_projects` on one project
row: the query selects `scope_type == ALL_DOCS ∧ status != OUTDATED` and
sets `status = OUTDATED`, `updated_at = now`; other rows are untouched. -/
def invalidateProject (now : Nat) (p : Project) : Project :=
  if p.scope_type = ScopeType.ALL_DOCS ∧ p.status ≠ ProjectStatus.OUTDATED then
    { p with status := .OUTDATED, updated_at := now }
  else p

/-- `IndexManager._invalidate_all_docs_projects` over the project table
(one committed pass). -/
def invalidate_all_docs_projects (now : Nat) (ps : List Project) :
    List Project :=
  ps.map (invalidateProject now)

/-- The state `IndexManager` operates on: both layer stores plus the
project table it invalidates. -/
structure IndexState where
  semantic : FAISSStore
  citation : FAISSStore
  projects : List Project
deriving Repr

/-- `SemanticLayer.add_chunks` / `CitationLayer.add_chunks`: embed the
texts (batched) and add to the layer's store; failures propagate.  The
embedding outcome is an oracle. -/
def layerAddChunks (store : FAISSStore)
    (embedBatch : Except String (List Vec))
    (texts : List String) (chunk_ids : List String) :
    Except String FAISSStore :=
  if texts.isEmpty then .ok store
  else
    match embedBatch with
    | .error e => .error e
    | .ok embs => store.add_vectors embs chunk_ids

/-- `IndexManager.add_document`: no-op on an empty chunk list, otherwise
add to the semantic layer, then the citation layer, then run the
invalidation pass.  A failing invalidation pass (`invalidation_ok =
false`) rolls its own transaction back, is logged, and is *not*
propagated: the call still succeeds. -/
def IndexManager.add_document
    (embedBatch : Except String (List Vec)) (invalidation_ok : Bool)
    (now : Nat) (st : IndexState) (_document_id : String)
    (chunks : List String) (chunk_ids : List String) :
    Except String IndexState :=
  if chunks.isEmpty then .ok st
  else
    match layerAddChunks st.semantic embedBatch chunks chunk_ids with
    | .error e => .error e
    | .ok sem' =>
      match layerAddChunks st.citation embedBatch chunks chunk_ids with
      | .error e => .error e
      | .ok cit' =>
        .ok { semantic := sem',
              citation := cit',
              projects :=
                if invalidation_ok then
                  invalidate_all_docs_projects now st.projects
                else st.projects }

/-! ## Relational store and retrieval services
(src/backend/src/storage/db/models.py,
 src/backend/src/services/retrieval/semantic.py,
 src/backend/src/services/retrieval/hybrid.py)

The relational collaborator is modelled as in-memory tables with
first-match lookup (ids are primary keys). -/

/-- A `chunks` table row. -/
structure DbChunk where
  id : String
  document_id : String
  text : String
  chunk_index : Nat
  page_number : Option Nat := none
  bounding_box : Option String := none
deriving Repr, DecidableEq

/-- A `documents` table row (the fields the join consumes). -/
structure DbDocument where
  id : String
  filename : String
deriving Repr, DecidableEq

/-- The relational store as seen by retrieval. -/
structure Database where
  chunks : List DbChunk
  documents : List DbDocument
deriving Repr

/-- `SearchResult` (src/backend/src/indexing/layers/semantic.py). -/
structure SearchResult where
  chunk_id : String
  score : ℚ
deriving Repr, DecidableEq

/-- `SemanticLayer.search` after the query has been embedded: delegate to
the store and package `(id, distance)` pairs. -/
def semanticLayerSearch (store : FAISSStore) (qv : Vec) (k : Nat) :
    List SearchResult :=
  (store.search qv k).map (fun p => { chunk_id := p.1, score := p.2 })

/-- The inner join
`ChunkModel ⋈ DocumentModel on document_id = id` restricted to one chunk
id, then hydration into a `RetrievedChunk` with the given score. -/
def hydrateChunk (db : Database) (cid : String) (score : ℚ) :
    Option RetrievedChunk :=
  (db.chunks.find? (fun c => c.id == cid)).bind (fun c =>
    (db.documents.find? (fun d => d.id == c.document_id)).map (fun d =>
      { id := c.id, text := c.text, score := score,
        document_id := c.document_id, filename := d.filename,
        page_number := c.page_number, bounding_box := c.bounding_box }))

/-- The `score_map` dict built in `SemanticRetrievalService.retrieve`
(`{res.chunk_id: res.score}`; on duplicate ids the later entry wins, hence
the lookup over the reversed list). -/
def scoreMapLookup (rs : List SearchResult) (cid : String) : Option ℚ :=
  (rs.reverse.find? (fun r => r.chunk_id == cid)).map (fun r => r.score)

/-- `SemanticRetrievalService.retrieve`: search the semantic index, then
hydrate each hit from the database in search order, silently dropping ids
the join cannot resolve. -/
def semanticRetrieve (db : Database) (store : FAISSStore)
    (qv : Vec) (k : Nat) : List RetrievedChunk :=
  if (semanticLayerSearch store qv k).isEmpty then []
  else
    ((semanticLayerSearch store qv k).map (fun r => r.chunk_id)).filterMap
      (fun cid => (scoreMapLookup (semanticLayerSearch store qv k) cid).bind
        (fun sc => hydrateChunk db cid sc))

/-- `HybridRetrievalService.search`: semantic retrieval followed by an
optional post-filter on document scope.  Python truthiness: a `None` *or
empty* scope list skips the filter. -/
def hybridSearch (db : Database) (store : FAISSStore) (qv : Vec) (k : Nat)
    (document_ids : Option (List String)) : List RetrievedChunk :=
  match document_ids with
  | none => semanticRetrieve db store qv k
  | some dids =>
    if dids.isEmpty then semanticRetrieve db store qv k
    else (semanticRetrieve db store qv k).filter
      (fun r => dids.contains r.document_id)

/-! ## Ingestion pipeline (src/backend/src/services/ingestion/pipeline.py,
 src/backend/src/models/document.py,
 src/backend/src/services/document_service.py)

Parsing, chunking and indexing are collaborators, modelled as oracles for
their outcomes.  Wall-clock timestamps (`indexed_at`) are not modelled. -/

/-- `DocumentStatus` enum. -/
inductive DocumentStatus where
  | UPLOADED | INDEXING | READY | ERROR
deriving Repr, DecidableEq

/-- The document row fields the pipeline touches. -/
structure IngestDocument where
  id : String
  filename : String
  file_type : String
  status : DocumentStatus
  error_message : Option String := none
  page_count : Option Nat := none
  chunk_count : Option Nat := none
deriving Repr, DecidableEq

/-- `DocumentService.update_status`: set the status; the error message is
only written when truthy (a non-empty string). -/
def update_status (doc : IngestDocument) (status : DocumentStatus)
    (error_message : Option String) : IngestDocument :=
  { doc with
    status := status,
    error_message :=
      match error_message with
      | some m => if m == "" then doc.error_message else some m
      | none => doc.error_message }

/-- Output of a document parser (`ParsedContent`), reduced to the fields
the pipeline reads. -/
structure ParsedContent where
  page_texts : List String
  page_count : Nat
deriving Repr, DecidableEq

/-- A chunk produced by `SemanticTextSplitter`, reduced to the fields the
pipeline persists. -/
structure IngestChunk where
  text : String
  chunk_index : Nat
  page_number : Option Nat := none
deriving Repr, DecidableEq

/-- `IngestionPipeline.run` for a found document.  Returns the final
document row and, when the `except` branch re-raised (`raise`), the
propagated exception message.  Stages: status → INDEXING; parse
(collaborator, may raise); record page count; chunk (collaborator); empty
chunk list → ERROR("No text extracted") and a plain return; persist chunk
rows and record chunk count; index into the layer manager (collaborator,
may raise); status → READY.  Any exception rolls the open transaction
back, records ERROR with `str(e)` and re-raises. -/
def pipeline_run (doc0 : IngestDocument)
    (parse : Except String ParsedContent)
    (split : ParsedContent → List IngestChunk)
    (indexAdd : Except String Unit) :
    IngestDocument × Option String :=
  let doc1 := update_status doc0 .INDEXING none
  match parse with
  | .error e => (update_status doc1 .ERROR (some e), some e)
  | .ok parsed =>
    let doc2 := { doc1 with page_count := some parsed.page_count }
    let chunks := split parsed
    if chunks.isEmpty then
      (update_status doc2 .ERROR (some "No text extracted"), none)
    else
      let doc3 := { doc2 with chunk_count := some chunks.length }
      match indexAdd with
      | .error e => (update_status doc3 .ERROR (some e), some e)
      | .ok _ => (update_status doc3 .READY none, none)

/-! ## Helper lemmas about the distance scan -/

theorem l2sq_nonneg (u v : Vec) : 0 ≤ l2sq u v := by
  apply List.sum_nonneg
  intro x hx
  obtain ⟨p, _, rfl⟩ := List.mem_map.mp hx
  exact mul_self_nonneg _

theorem l2sq_self (v : Vec) : l2sq v v = 0 := by
  induction v with
  | nil => rfl
  | cons a t ih => simpa [l2sq] using ih

theorem l2sq_eq_zero_iff :
    ∀ {u v : Vec}, u.length = v.length → (l2sq u v = 0 ↔ u = v) := by
  intro u
  induction u with
  | nil =>
    intro v hlen
    cases v with
    | nil => simp [l2sq]
    | cons b t => simp at hlen
  | cons a t ih =>
    intro v hlen
    cases v with
    | nil => simp at hlen
    | cons b t' =>
      have hlen' : t.length = t'.length := by simpa using hlen
      constructor
      · intro h
        have hsum : (a - b) * (a - b) + l2sq t t' = 0 := by
          simpa [l2sq] using h
        have hz := (add_eq_zero_iff_of_nonneg (mul_self_nonneg _)
          (l2sq_nonneg t t')).mp hsum
        have hab : a = b := by
          have := mul_self_eq_zero.mp hz.1
          linarith [sub_eq_zero.mp this]
        have htt : t = t' := (ih hlen').mp hz.2
        rw [hab, htt]
      · intro h
        rw [h]
        exact l2sq_self _

theorem le_foldr_max (l : List Nat) : ∀ x ∈ l, x ≤ l.foldr max 0 := by
  induction l with
  | nil => simp
  | cons a t ih =>
    intro x hx
    rcases List.mem_cons.mp hx with h | h
    · simp [h]
    · exact le_trans (ih x h) (by simp)

/-- Looking up `start + i` in the zip of `range' start n` with an id list
of length `n` returns the `i`-th id. -/
theorem lookup_zip_range' (ids : List String) :
    ∀ (start i : Nat), i < ids.length →
      ((List.range' start ids.length).zip ids).lookup (start + i) =
        ids.get? i := by
  induction ids with
  | nil => intro start i h; simp at h
  | cons a t ih =>
    intro start i h
    rw [show (a :: t).length = t.length + 1 from rfl, List.range'_succ]
    cases i with
    | zero =>
      simp [List.lookup]
    | succ i' =>
      have hne : ((start + (i' + 1)) == start) = false := by
        rw [beq_eq_false_iff_ne]
        omega
      simp only [List.zip_cons_cons, List.lookup_cons, hne, List.get?_cons_succ]
      rw [show start + (i' + 1) = (start + 1) + i' from by omega]
      exact ih (start + 1) i' (by simpa using h)

/-- `search` returns at most `k` results. -/
theorem search_length_le (s : FAISSStore) (q : Vec) (k : Nat) :
    (s.search q k).length ≤ k := by
  unfold FAISSStore.search
  split
  · simp
  · refine le_trans (List.length_filterMap_le _ _) ?_
    unfold faissRawSearch
    rw [List.length_take]
    exact min_le_left _ _

/-- `search` results are in ascending distance order. -/
theorem search_pairwise_le (s : FAISSStore) (q : Vec) (k : Nat) :
    List.Pairwise (fun a b : String × ℚ => a.2 ≤ b.2) (s.search q k) := by
  unfold FAISSStore.search
  split
  · simp
  · have hsorted : List.Pairwise distLE
        (faissRawSearch s.vectors q k) :=
      List.Pairwise.sublist (List.take_sublist _ _)
        (List.sorted_insertionSort distLE (scoreAll s.vectors q))
    rw [List.pairwise_filterMap]
    refine hsorted.imp ?_
    intro a b hab x hx y hy
    simp only [Option.mem_def, Option.map_eq_some'] at hx hy
    obtain ⟨_, _, rfl⟩ := hx
    obtain ⟨_, _, rfl⟩ := hy
    exact hab

/-! ## Claim C6 -/

/-- C6: for every store, query vector and `k`, `search` returns at
most `k` `(externalId, distance)` pairs, in ascending order of distance,
every returned distance being the exact squared-Euclidean distance of the
query to a stored vector whose internal id maps to the returned external
id; and `search` on an empty index returns the empty result (rather than
an error — the model's `search` is total). -/
theorem c6_search_ordered_bounded (s : FAISSStore) (q : Vec) (k : Nat) :
    (s.search q k).length ≤ k ∧
    List.Pairwise (fun a b : String × ℚ => a.2 ≤ b.2) (s.search q k) ∧
    (∀ p ∈ s.search q k, ∃ i, i < s.vectors.length ∧
        s.id_map.lookup i = some p.1 ∧ p.2 = l2sq q (s.vectors.getD i [])) ∧
    (s.vectors = [] → s.search q k = []) := by
  refine ⟨search_length_le s q k, search_pairwise_le s q k, ?_, ?_⟩
  · intro p hp
    unfold FAISSStore.search at hp
    split at hp
    · simp at hp
    · obtain ⟨a, ha, hfa⟩ := List.mem_filterMap.mp hp
      have hmem : a ∈ scoreAll s.vectors q :=
        (List.perm_insertionSort distLE _).mem_iff.mp
          (List.Sublist.mem ha (List.take_sublist _ _))
      obtain ⟨i, hi, rfl⟩ := List.mem_map.mp hmem
      simp only [Option.map_eq_some'] at hfa
      obtain ⟨sid, hlook, hpair⟩ := hfa
      refine ⟨i, List.mem_range.mp hi, ?_, ?_⟩
      · rw [hlook, ← hpair]
      · rw [← hpair]
  · intro h
    simp [FAISSStore.search, h]

/-- Witness for C6: searching a freshly created (empty) index returns the
empty result. -/
theorem c6_witness : (FAISSStore.emptyStore 2).search [1, 0] 5 = [] :=
  (c6_search_ordered_bounded (FAISSStore.emptyStore 2) [1, 0] 5).2.2.2 rfl

/-! ## Claim C7 -/

/-- C7 (amended): after `add_vectors(vectors, ids)` into a fresh
(empty) index, *provided the added vectors are pairwise distinct* (and all
of the index dimension), a search with query `vectors[i]` and `k = 1`
returns exactly `ids[i]` with distance 0.  (Without distinctness the top
hit can be an earlier duplicate of `vectors[i]` carrying a different id —
see the counterexample.) -/
theorem c7_amended_round_trip (d : Nat) (vs : List Vec) (ids : List String)
    (s : FAISSStore) (hlen : vs.length = ids.length)
    (hdim : ∀ v ∈ vs, v.length = d) (hnodup : vs.Nodup)
    (hadd : (FAISSStore.emptyStore d).add_vectors vs ids = .ok s)
    (i : Nat) (hi : i < vs.length) :
    s.search (vs.get ⟨i, hi⟩) 1 = [(ids.get ⟨i, hlen ▸ hi⟩, 0)] := by
  -- Unpack the store produced by `add_vectors` on the empty index.
  have hvs_ne : vs.isEmpty = false := by
    cases vs with
    | nil => simp at hi
    | cons a t => rfl
  have hs : s = { dimension := d, vectors := vs,
                  id_map := (List.range' 0 ids.length).zip ids } := by
    unfold FAISSStore.add_vectors at hadd
    rw [if_neg (by simp [hlen]), if_neg (by simp [hvs_ne])] at hadd
    simpa [FAISSStore.emptyStore] using (Except.ok.inj hadd).symm
  subst hs
  set q := vs.get ⟨i, hi⟩ with hq
  -- The scored scan and its sort.
  set L := List.insertionSort distLE (scoreAll vs q) with hL
  have hlenL : L.length = vs.length := by
    rw [hL, (List.perm_insertionSort distLE _).length_eq]
    simp [scoreAll]
  have hLne : L ≠ [] := by
    intro h
    rw [h] at hlenL
    simp at hlenL
    omega
  obtain ⟨p, rest, hcons⟩ := List.exists_cons_of_ne_nil hLne
  -- The head of the sort is a scored pair.
  have hpmem : p ∈ scoreAll vs q := by
    have : p ∈ L := by rw [hcons]; exact List.mem_cons_self _ _
    exact (List.perm_insertionSort distLE _).mem_iff.mp this
  obtain ⟨j, hj, hpj⟩ := List.mem_map.mp hpmem
  have hjlt : j < vs.length := List.mem_range.mp hj
  -- The pair `(i, 0)` is among the scored pairs.
  have hi0mem : ((i, 0) : Nat × ℚ) ∈ scoreAll vs q := by
    apply List.mem_map.mpr
    refine ⟨i, List.mem_range.mpr hi, ?_⟩
    rw [List.getD_eq_get vs [] hi, ← hq, l2sq_self]
  -- Head distance is at most 0 and at least 0, hence 0.
  have hple : p.2 ≤ 0 := by
    have hmemL : ((i, 0) : Nat × ℚ) ∈ L :=
      (List.perm_insertionSort distLE _).mem_iff.mpr hi0mem
    rw [hcons] at hmemL
    rcases List.mem_cons.mp hmemL with h | h
    · rw [← h]
    · have hsorted : List.Pairwise distLE L :=
        List.sorted_insertionSort distLE (scoreAll vs q)
      rw [hcons] at hsorted
      exact List.rel_of_pairwise_cons hsorted h
  have hpge : 0 ≤ p.2 := by
    rw [← hpj]
    exact l2sq_nonneg _ _
  have hp0 : p.2 = 0 := le_antisymm hple hpge
  -- Zero distance forces the head to be position `i` itself.
  have hveq : vs.getD j [] = q := by
    have hz : l2sq q (vs.getD j []) = 0 := by
      have : p.2 = l2sq q (vs.getD j []) := by rw [← hpj]
      rw [← this, hp0]
    have hlq : q.length = d := hdim q (List.get_mem vs i hi)
    have hlj : (vs.getD j []).length = d := by
      rw [List.getD_eq_get vs [] hjlt]
      exact hdim _ (List.get_mem vs j hjlt)
    exact ((l2sq_eq_zero_iff (by rw [hlq, hlj])).mp hz).symm
  have hji : j = i := by
    have hgetj : vs.get ⟨j, hjlt⟩ = vs.get ⟨i, hi⟩ := by
      rw [← List.getD_eq_get vs [] hjlt, hveq, hq]
    exact congrArg Fin.val ((hnodup.get_inj_iff).mp hgetj)
  have hpeq : p = (i, (0 : ℚ)) := by
    have h1 : p.1 = i := by rw [← hpj]; simpa using hji
    exact Prod.ext h1 hp0
  -- Assemble the search result.
  show FAISSStore.search _ q 1 = _
  unfold FAISSStore.search
  have h0 : ¬ (vs.length = 0) := by omega
  rw [if_neg h0]
  unfold faissRawSearch
  have htake : (p :: rest).take 1 = [p] := rfl
  rw [← hL, hcons, htake, hpeq]
  have hlook : ((List.range' 0 ids.length).zip ids).lookup i =
      some (ids.get ⟨i, hlen ▸ hi⟩) := by
    have := lookup_zip_range' ids 0 i (hlen ▸ hi)
    rw [Nat.zero_add] at this
    rw [this, List.get?_eq_get (hlen ▸ hi)]
  simp [hlook]

/-- Counterexample to C7 as stated: adding the *same* vector twice under
ids `"a"` then `"b"` and searching with `vectors[1]` at `k = 1` returns
`"a"` (the earlier duplicate), not `ids[1] = "b"`. -/
theorem c7_counterexample :
    (FAISSStore.emptyStore 1).add_vectors [[0], [0]] ["a", "b"] =
      .ok { dimension := 1, vectors := [[0], [0]],
            id_map := [(0, "a"), (1, "b")] } ∧
    ({ dimension := 1, vectors := [[0], [0]],
       id_map := [(0, "a"), (1, "b")] } : FAISSStore).search [0] 1 =
      [("a", 0)] ∧
    ("a" : String) ≠ "b" := by
  refine ⟨by decide, ?_, by decide⟩
  norm_num [FAISSStore.search, faissRawSearch, scoreAll, l2sq,
    List.insertionSort, List.orderedInsert, List.range_succ, distLE,
    List.lookup, List.filterMap_cons, List.filterMap_nil, Option.map]

/-- Witness for C7: on distinct vectors `[[0], [3]]` with ids
`["a", "b"]`, searching with `vectors[1]` returns `("b", 0)`. -/
theorem c7_witness :
    ({ dimension := 1, vectors := [[0], [3]],
       id_map := [(0, "a"), (1, "b")] } : FAISSStore).search [3] 1 =
      [("b", 0)] := by
  have h := c7_amended_round_trip 1 [[0], [3]] ["a", "b"]
    { dimension := 1, vectors := [[0], [3]], id_map := [(0, "a"), (1, "b")] }
    (by decide) (by decide) (by decide) (by decide) 1 (by decide)
  exact h

/-! ## Claim C3 -/

/-- A successful `add_vectors` with pairwise-distinct, not-yet-present
external ids preserves the consistency invariant. -/
theorem consistent_add_vectors (s : FAISSStore) (vectors : List Vec)
    (ids : List String) (s' : FAISSStore)
    (h : s.add_vectors vectors ids = .ok s')
    (hc : s.consistent) (hnodup : ids.Nodup)
    (hfresh : ∀ i ∈ ids, i ∉ s.id_map.map Prod.snd) :
    s'.consistent := by
  unfold FAISSStore.add_vectors at h
  split at h
  · cases h
  next hlen =>
    split at h
    next hemp =>
      cases h
      exact hc
    next hemp =>
      have hlen' : vectors.length = ids.length := by
        by_contra hne
        exact hlen hne
      set start_id : Nat :=
        if s.id_map.isEmpty then 0
        else ((s.id_map.map Prod.fst).foldr max 0) + 1 with hstart
      have hrlen : (List.range' start_id ids.length).length = ids.length :=
        List.length_range' _ _ _
      cases h
      refine ⟨⟨?_, ?_⟩, ?_⟩
      · -- internal keys stay pairwise distinct
        rw [List.map_append, List.map_fst_zip _ _ (le_of_eq hrlen)]
        rw [List.nodup_append]
        refine ⟨hc.1.1, List.nodup_range' _ _, ?_⟩
        rw [List.disjoint_left]
        intro a ha hmem
        have hbound := (List.mem_range'_1.mp hmem).1
        cases hmap : s.id_map.isEmpty with
        | true =>
          rw [List.isEmpty_iff] at hmap
          rw [hmap] at ha
          simp at ha
        | false =>
          have hle : a ≤ (s.id_map.map Prod.fst).foldr max 0 :=
            le_foldr_max _ a ha
          rw [hstart, if_neg (by simp [hmap])] at hbound
          omega
      · -- external ids stay pairwise distinct
        rw [List.map_append, List.map_snd_zip _ _ (le_of_eq hrlen.symm)]
        rw [List.nodup_append]
        refine ⟨hc.1.2, hnodup, ?_⟩
        rw [List.disjoint_right]
        intro a ha hmem
        exact hfresh a ha hmem
      · -- vector count still equals mapping size
        rw [List.length_append, List.length_append, List.length_zip,
          hrlen, hc.2, hlen', min_self]

/-- Each single operation preserves the invariant (under freshness of the
added external ids). -/
theorem consistent_applyOp (s : FAISSStore) (op : StoreOp)
    (hc : s.consistent) (hf : freshAdd s op) :
    (s.applyOp op).consistent := by
  cases op with
  | add vectors ids =>
    show FAISSStore.consistent (match s.add_vectors vectors ids with
      | .ok s' => s'
      | .error _ => s)
    cases hadd : s.add_vectors vectors ids with
    | ok s' => exact consistent_add_vectors s vectors ids s' hadd hc hf.1 hf.2
    | error e => exact hc
  | search q k => exact hc
  | clear =>
    refine ⟨⟨List.nodup_nil, List.nodup_nil⟩, rfl⟩

/-- C3 (amended): across every sequence of `add`/`search`/`clear`
operations *whose adds use pairwise-distinct, not-yet-present external
ids*, the internal-to-external id mapping remains a bijection and the
number of stored vectors equals the size of the mapping.  The code
performs no consistency check of its own: duplicate external ids are
accepted silently and break injectivity (see the counterexample), and no
operation raises a consistency error. -/
theorem c3_amended_invariant (s : FAISSStore) (ops : List StoreOp)
    (hc : s.consistent) (hf : freshOps s ops) :
    (s.applyOps ops).consistent := by
  induction ops generalizing s with
  | nil => exact hc
  | cons op rest ih =>
    exact ih (s.applyOp op) (consistent_applyOp s op hc hf.1) hf.2

/-- Counterexample to C3 as stated: a single `add_vectors` call with the
duplicate external ids `["a", "a"]` succeeds (no consistency error is
raised) and leaves a mapping that is not injective on external ids —
the violation is neither prevented nor surfaced. -/
theorem c3_counterexample :
    (FAISSStore.emptyStore 1).add_vectors [[0], [1]] ["a", "a"] =
      .ok { dimension := 1, vectors := [[0], [1]],
            id_map := [(0, "a"), (1, "a")] } ∧
    ¬ mappingBijective [(0, "a"), (1, "a")] := by
  refine ⟨by decide, by decide⟩

/-- Witness for C3: a concrete fresh-id operation sequence (two adds, a
search, a clear, another add) keeps a concrete store consistent. -/
theorem c3_witness :
    ((FAISSStore.emptyStore 1).applyOps
      [.add [[0], [1]] ["a", "b"], .search [0] 2, .add [[2]] ["c"],
       .clear, .add [[3]] ["a"]]).consistent :=
  c3_amended_invariant (FAISSStore.emptyStore 1) _ (by decide) (by decide)

/-! ## Claim C1 -/

/-- Fuel-indexed bound on the generation loop: from retry counter `r`,
at most `(m - r) + 1` generations happen. -/
theorem genAttempts_le_aux (oracle : Nat → Bool) (m : Nat) :
    ∀ fuel r, m - r ≤ fuel → genAttempts oracle m r ≤ fuel + 1 := by
  intro fuel
  induction fuel with
  | zero =>
    intro r h
    unfold genAttempts
    split
    · exact le_refl 1
    · split
      next hlt => omega
      next => exact le_refl 1
  | succ fuel ih =>
    intro r h
    unfold genAttempts
    split
    · omega
    · split
      next hlt =>
        have := ih (r + 1) (by omega)
        omega
      next => omega

/-- The loop from a fresh run performs at most `m + 1` generations. -/
theorem genAttempts_le (oracle : Nat → Bool) (m : Nat) :
    genAttempts oracle m 0 ≤ m + 1 :=
  genAttempts_le_aux oracle m m 0 (by omega)

/-- C1 (amended): when VERIFY reports not-grounded on a real
generation, the retry counter increases by exactly 1, the candidate set
and retry budget are untouched, and the machine returns to GENERATE
(never RETRIEVE) precisely when the *incremented* counter is still below
`maxRetries`; the whole loop performs at most `maxRetries + 1` generation
attempts.  (As stated — with the pre-increment counter below
`maxRetries` — the claim fails: the code increments first and then
compares, see the counterexample.) -/
theorem c1_amended_retry_loop :
    (∀ (s : AgentState) (g : Bool),
      strFalsy s.generation = false → s.documents.isEmpty = false →
      g = false →
      (hallucination_node g s).retries = s.retries + 1 ∧
      (hallucination_node g s).documents = s.documents ∧
      (hallucination_node g s).max_retries = s.max_retries ∧
      (hallucination_node g s).is_answerable = false ∧
      ((hallucination_node g s).retries < (hallucination_node g s).max_retries →
        hallucinationNext (hallucination_node g s) = GraphNode.generate)) ∧
    (∀ (oracle : Nat → Bool) (m : Nat), genAttempts oracle m 0 ≤ m + 1) := by
  constructor
  · intro s g hgen hdocs hg
    subst hg
    have hcond : (strFalsy s.generation || s.documents.isEmpty) = false := by
      rw [hgen, hdocs]
      rfl
    have hstate : hallucination_node false s =
        { s with steps := s.steps ++ ["check_hallucinations"],
                 is_answerable := false,
                 retries := s.retries + 1 } := by
      unfold hallucination_node
      rw [hcond]
      simp
    rw [hstate]
    refine ⟨rfl, rfl, rfl, rfl, ?_⟩
    intro hlt
    unfold hallucinationNext grade_generation_v_documents_and_question
    rw [if_neg (by simp), if_pos hlt]
  · exact fun oracle m => genAttempts_le oracle m

/-- Witness for C1 (amended): a concrete not-grounded verification at
`retries = 0`, `max_retries = 2` re-enters GENERATE with the counter at 1. -/
theorem c1_witness :
    (hallucination_node false
      { question := "q", project_id := "p", document_ids := none,
        documents := [{ id := "c", text := "t", score := 0,
                        document_id := "d", filename := "f" }],
        generation := some "ans", is_answerable := true,
        confidence_score := 1, retries := 0, max_retries := 2,
        errors := [], steps := [], feedback := none }).retries = 1 ∧
    hallucinationNext (hallucination_node false
      { question := "q", project_id := "p", document_ids := none,
        documents := [{ id := "c", text := "t", score := 0,
                        document_id := "d", filename := "f" }],
        generation := some "ans", is_answerable := true,
        confidence_score := 1, retries := 0, max_retries := 2,
        errors := [], steps := [], feedback := none }) =
      GraphNode.generate := by
  have h := c1_amended_retry_loop.1
    { question := "q", project_id := "p", document_ids := none,
      documents := [{ id := "c", text := "t", score := 0,
                      document_id := "d", filename := "f" }],
      generation := some "ans", is_answerable := true,
      confidence_score := 1, retries := 0, max_retries := 2,
      errors := [], steps := [], feedback := none }
    false rfl rfl rfl
  exact ⟨h.1, h.2.2.2.2 (by rw [h.1, h.2.2.1]; decide)⟩

/-- Counterexample to C1 as stated: at `retries = 0 < max_retries = 1`,
VERIFY reports not-grounded, yet the machine routes to END (the counter is
incremented to 1 *before* the `retries < max_retries` comparison), not
back to GENERATE. -/
theorem c1_counterexample :
    (0 : Nat) < 1 ∧
    (hallucination_node false
      { question := "q", project_id := "p", document_ids := none,
        documents := [{ id := "c", text := "t", score := 0,
                        document_id := "d", filename := "f" }],
        generation := some "ans", is_answerable := true,
        confidence_score := 1, retries := 0, max_retries := 1,
        errors := [], steps := [], feedback := none }).is_answerable
      = false ∧
    hallucinationNext (hallucination_node false
      { question := "q", project_id := "p", document_ids := none,
        documents := [{ id := "c", text := "t", score := 0,
                        document_id := "d", filename := "f" }],
        generation := some "ans", is_answerable := true,
        confidence_score := 1, retries := 0, max_retries := 1,
        errors := [], steps := [], feedback := none }) =
      GraphNode.endNode := by
  refine ⟨by decide, by decide, by decide⟩

/-! ## Claim C4 -/

/-- C4: with an empty candidate list, GENERATE is independent of the
reasoning collaborator's reply (it is never consulted) and produces the
fixed "no relevant information" generation with `answerable = false` and
confidence 0. -/
theorem c4_generate_empty_shortcircuit (s : AgentState)
    (h : s.documents = [])
    (o₁ o₂ : Except String GeneratedResponse) :
    generate_node o₁ s = generate_node o₂ s ∧
    (generate_node o₁ s).generation =
      some "I'm sorry, I couldn't find any relevant information to answer this question." ∧
    (generate_node o₁ s).is_answerable = false ∧
    (generate_node o₁ s).confidence_score = 0 := by
  have hemp : s.documents.isEmpty = true := by
    rw [h]
    rfl
  unfold generate_node
  rw [hemp]
  exact ⟨rfl, rfl, rfl, rfl⟩

/-- Witness for C4: a concrete empty-candidate state short-circuits the
same way for a successful and for a failing collaborator. -/
theorem c4_witness :
    generate_node (.ok { answer := "x", is_answerable := true,
                         confidence_score := 1, cited_indices := [1] })
      { question := "q", project_id := "p", document_ids := none,
        documents := [], generation := none, is_answerable := true,
        confidence_score := 0, retries := 0, max_retries := 1,
        errors := [], steps := [], feedback := none } =
    generate_node (.error "llm down")
      { question := "q", project_id := "p", document_ids := none,
        documents := [], generation := none, is_answerable := true,
        confidence_score := 0, retries := 0, max_retries := 1,
        errors := [], steps := [], feedback := none } :=
  (c4_generate_empty_shortcircuit _ rfl _ _).1

/-! ## Claim C10 -/

/-- C10: VERIFY skips the reasoning collaborator and reports the
generation grounded whenever *either* the generation is falsy *or* the
candidate list is empty (not only when both are absent): the node's result
does not depend on the collaborator verdict, sets `is_answerable = true`,
and leaves the retry counter unchanged.  In particular a non-empty
generation whose candidate list was narrowed to empty is accepted as
grounded without any collaborator check. -/
theorem c10_verify_skip_on_either_empty (s : AgentState)
    (h : strFalsy s.generation = true ∨ s.documents = [])
    (g₁ g₂ : Bool) :
    hallucination_node g₁ s = hallucination_node g₂ s ∧
    (hallucination_node g₁ s).is_answerable = true ∧
    (hallucination_node g₁ s).retries = s.retries := by
  have hcond : (strFalsy s.generation || s.documents.isEmpty) = true := by
    rcases h with h | h
    · rw [h]
      rfl
    · rw [h]
      simp
  unfold hallucination_node
  rw [hcond]
  exact ⟨rfl, rfl, rfl⟩

/-- Witness for C10: a non-empty generation with an empty candidate list
is reported grounded for both collaborator verdicts, without a counter
change. -/
theorem c10_witness :
    (hallucination_node false
      { question := "q", project_id := "p", document_ids := none,
        documents := [], generation := some "an answer",
        is_answerable := false, confidence_score := 0, retries := 0,
        max_retries := 1, errors := [], steps := [],
        feedback := none }).is_answerable = true :=
  (c10_verify_skip_on_either_empty
    { question := "q", project_id := "p", document_ids := none,
      documents := [], generation := some "an answer",
      is_answerable := false, confidence_score := 0, retries := 0,
      max_retries := 1, errors := [], steps := [], feedback := none }
    (Or.inr rfl) false true).2.1

/-! ## Claim C5 -/

/-- C5 (amended): every ingestion failure yields the terminal `ERROR`
status on the owning document, with the captured message recorded whenever
it is non-empty (the status writer skips falsy messages), and `READY` is
reached exactly when every stage succeeded; an agent-run
reasoning-collaborator failure during GENERATE, however, is caught and
converted into the fixed "Error during answer generation." response with
`answerable = false` and confidence 0 — the run records no terminal
failure status and the captured exception message is not stored in the
run state (`errors` is left unchanged). -/
theorem c5_amended_failure_statuses :
    (∀ (doc0 : IngestDocument) (parse : Except String ParsedContent)
       (split : ParsedContent → List IngestChunk)
       (indexAdd : Except String Unit),
      (∀ e, parse = .error e →
        (pipeline_run doc0 parse split indexAdd).1.status = .ERROR ∧
        (e ≠ "" →
          (pipeline_run doc0 parse split indexAdd).1.error_message = some e) ∧
        (pipeline_run doc0 parse split indexAdd).2 = some e) ∧
      (∀ parsed, parse = .ok parsed → split parsed = [] →
        (pipeline_run doc0 parse split indexAdd).1.status = .ERROR ∧
        (pipeline_run doc0 parse split indexAdd).1.error_message =
          some "No text extracted") ∧
      (∀ parsed e, parse = .ok parsed → split parsed ≠ [] →
        indexAdd = .error e →
        (pipeline_run doc0 parse split indexAdd).1.status = .ERROR ∧
        (e ≠ "" →
          (pipeline_run doc0 parse split indexAdd).1.error_message = some e) ∧
        (pipeline_run doc0 parse split indexAdd).2 = some e) ∧
      (∀ parsed, parse = .ok parsed → split parsed ≠ [] →
        indexAdd = .ok () →
        (pipeline_run doc0 parse split indexAdd).1.status = .READY)) ∧
    (∀ (s : AgentState) (msg : String), s.documents ≠ [] →
      (generate_node (.error msg) s).generation =
        some "Error during answer generation." ∧
      (generate_node (.error msg) s).is_answerable = false ∧
      (generate_node (.error msg) s).confidence_score = 0 ∧
      (generate_node (.error msg) s).errors = s.errors) := by
  constructor
  · intro doc0 parse split indexAdd
    refine ⟨?_, ?_, ?_, ?_⟩
    · intro e he
      subst he
      refine ⟨rfl, fun hne => ?_, rfl⟩
      have hbeq : (e == "") = false := beq_eq_false_iff_ne.mpr hne
      simp [pipeline_run, update_status, hbeq]
    · intro parsed hp hsplit
      subst hp
      have hemp : (split parsed).isEmpty = true := by
        rw [hsplit]
        rfl
      refine ⟨?_, ?_⟩ <;> simp [pipeline_run, update_status, hemp]
    · intro parsed e hp hsplit hidx
      subst hp
      subst hidx
      have hemp : (split parsed).isEmpty = false := by
        cases hsp : split parsed with
        | nil => exact absurd hsp hsplit
        | cons a t => rfl
      refine ⟨?_, fun hne => ?_, ?_⟩
      · simp [pipeline_run, update_status, hemp]
      · have hbeq : (e == "") = false := beq_eq_false_iff_ne.mpr hne
        simp [pipeline_run, update_status, hemp, hbeq]
      · simp [pipeline_run, hemp]
    · intro parsed hp hsplit hidx
      subst hp
      subst hidx
      have hemp : (split parsed).isEmpty = false := by
        cases hsp : split parsed with
        | nil => exact absurd hsp hsplit
        | cons a t => rfl
      simp [pipeline_run, update_status, hemp]
  · intro s msg hdocs
    have hemp : s.documents.isEmpty = false := by
      cases hd : s.documents with
      | nil => exact absurd hd hdocs
      | cons a t => rfl
    unfold generate_node
    rw [hemp]
    exact ⟨rfl, rfl, rfl, rfl⟩

/-- Counterexample to C5 as stated: (a) a reasoning-collaborator failure
carrying message `"llm down"` during GENERATE leaves the run's `errors`
list empty — the captured message is recorded nowhere in the run state and
no terminal failure status exists for the run; (b) an ingestion failure
whose exception message is the empty string records `ERROR` but *without*
the captured message (`error_message` stays `none`). -/
theorem c5_counterexample :
    (generate_node (.error "llm down")
      { question := "q", project_id := "p", document_ids := none,
        documents := [{ id := "c", text := "t", score := 0,
                        document_id := "d", filename := "f" }],
        generation := none, is_answerable := true, confidence_score := 0,
        retries := 0, max_retries := 1, errors := [], steps := [],
        feedback := none }).errors = [] ∧
    (generate_node (.error "llm down")
      { question := "q", project_id := "p", document_ids := none,
        documents := [{ id := "c", text := "t", score := 0,
                        document_id := "d", filename := "f" }],
        generation := none, is_answerable := true, confidence_score := 0,
        retries := 0, max_retries := 1, errors := [], steps := [],
        feedback := none }).generation =
      some "Error during answer generation." ∧
    (pipeline_run
      { id := "doc1", filename := "a.pdf", file_type := "pdf",
        status := .UPLOADED }
      (.error "") (fun _ => []) (.ok ())).1.status = .ERROR ∧
    (pipeline_run
      { id := "doc1", filename := "a.pdf", file_type := "pdf",
        status := .UPLOADED }
      (.error "") (fun _ => []) (.ok ())).1.error_message = none := by
  refine ⟨by decide, by decide, by decide, by decide⟩

/-- Witness for C5 (amended): a concrete indexing failure with message
`"faiss write failed"` ends with `ERROR` and that message recorded. -/
theorem c5_witness :
    (pipeline_run
      { id := "doc1", filename := "a.pdf", file_type := "pdf",
        status := .UPLOADED }
      (.ok { page_texts := ["hello"], page_count := 1 })
      (fun _ => [{ text := "hello", chunk_index := 0 }])
      (.error "faiss write failed")).1.status = .ERROR ∧
    (pipeline_run
      { id := "doc1", filename := "a.pdf", file_type := "pdf",
        status := .UPLOADED }
      (.ok { page_texts := ["hello"], page_count := 1 })
      (fun _ => [{ text := "hello", chunk_index := 0 }])
      (.error "faiss write failed")).1.error_message =
      some "faiss write failed" := by
  have h := (c5_amended_failure_statuses.1
    { id := "doc1", filename := "a.pdf", file_type := "pdf",
      status := .UPLOADED }
    (.ok { page_texts := ["hello"], page_count := 1 })
    (fun _ => [{ text := "hello", chunk_index := 0 }])
    (.error "faiss write failed")).2.2.1
    { page_texts := ["hello"], page_count := 1 } "faiss write failed"
    rfl (by decide) rfl
  exact ⟨h.1, h.2.1 (by decide)⟩

/-! ## Claim C2 -/

/-- C2: when a non-empty chunk set is successfully added through
`IndexManager.add_document`, the project table afterwards is exactly one
invalidation pass over the old table, under which (i) every `ALL_DOCS`
project not already `OUTDATED` is flipped to `OUTDATED` (once — each row
is visited once by the pass), (ii) a project already `OUTDATED` is left
entirely unchanged (no re-flip, no timestamp touch), and (iii) a failing
invalidation pass is never propagated: whether the pass succeeds or fails,
`add_document` itself succeeds or fails identically. -/
theorem c2_invalidation_invariant
    (embedBatch : Except String (List Vec)) (now : Nat) (st : IndexState)
    (document_id : String) (chunks chunk_ids : List String)
    (hne : chunks ≠ []) :
    (∀ st', IndexManager.add_document embedBatch true now st document_id
        chunks chunk_ids = .ok st' →
      st'.projects = invalidate_all_docs_projects now st.projects) ∧
    (∀ p, p.scope_type = ScopeType.ALL_DOCS →
      p.status ≠ ProjectStatus.OUTDATED →
      (invalidateProject now p).status = ProjectStatus.OUTDATED) ∧
    (∀ p, p.status = ProjectStatus.OUTDATED → invalidateProject now p = p) ∧
    (∀ ok₁ ok₂ : Bool,
      (IndexManager.add_document embedBatch ok₁ now st document_id
        chunks chunk_ids).isOk =
      (IndexManager.add_document embedBatch ok₂ now st document_id
        chunks chunk_ids).isOk) := by
  have hemp : chunks.isEmpty = false := by
    cases hc : chunks with
    | nil => exact absurd hc hne
    | cons a t => rfl
  refine ⟨?_, ?_, ?_, ?_⟩
  · intro st' hok
    unfold IndexManager.add_document at hok
    rw [hemp] at hok
    simp only [Bool.false_eq_true, if_false] at hok
    cases h1 : layerAddChunks st.semantic embedBatch chunks chunk_ids with
    | error e => rw [h1] at hok; cases hok
    | ok sem' =>
      rw [h1] at hok
      cases h2 : layerAddChunks st.citation embedBatch chunks chunk_ids with
      | error e => rw [h2] at hok; cases hok
      | ok cit' =>
        rw [h2] at hok
        simp only [if_true] at hok
        have := Except.ok.inj hok
        rw [← this]
  · intro p hscope hstatus
    unfold invalidateProject
    rw [if_pos ⟨hscope, hstatus⟩]
  · intro p hstatus
    unfold invalidateProject
    rw [if_neg (fun hc => hc.2 hstatus)]
  · intro ok₁ ok₂
    unfold IndexManager.add_document
    rw [hemp]
    simp only [Bool.false_eq_true, if_false]
    cases layerAddChunks st.semantic embedBatch chunks chunk_ids with
    | error e => rfl
    | ok sem' =>
      cases layerAddChunks st.citation embedBatch chunks chunk_ids with
      | error e => rfl
      | ok cit' => rfl

/-- Witness for C2: the invalidation pass of a concrete `add_document`
flips a stale `ALL_DOCS` project to `OUTDATED` and leaves an
already-`OUTDATED` project entirely untouched. -/
theorem c2_witness :
    (invalidateProject 7
      { id := "p1", scope_type := .ALL_DOCS, status := .READY,
        updated_at := 3 }).status = ProjectStatus.OUTDATED ∧
    invalidateProject 7
      { id := "p2", scope_type := .ALL_DOCS, status := .OUTDATED,
        updated_at := 4 } =
      { id := "p2", scope_type := .ALL_DOCS, status := .OUTDATED,
        updated_at := 4 } := by
  have h := c2_invalidation_invariant (.ok [[0]]) 7
    { semantic := FAISSStore.emptyStore 1,
      citation := FAISSStore.emptyStore 1,
      projects := [{ id := "p1", scope_type := .ALL_DOCS,
                     status := .READY, updated_at := 3 },
                   { id := "p2", scope_type := .ALL_DOCS,
                     status := .OUTDATED, updated_at := 4 }] }
    "doc1" ["chunk text"] ["c1"] (by decide)
  exact ⟨h.2.1 _ (by decide) (by decide), h.2.2.1 _ (by decide)⟩

/-! ## Claim C8 -/

theorem mem_of_lookup_eq_some {α β : Type _} [BEq α] [LawfulBEq α]
    {l : List (α × β)} {a : α} {b : β} (h : l.lookup a = some b) :
    (a, b) ∈ l := by
  induction l with
  | nil => cases h
  | cons p t ih =>
    obtain ⟨k, v⟩ := p
    cases hbeq : a == k with
    | true =>
      have hk : a = k := beq_iff_eq.mp hbeq
      simp only [List.lookup_cons, hbeq] at h
      cases h
      rw [hk]
      exact List.mem_cons_self _ _
    | false =>
      simp only [List.lookup_cons, hbeq] at h
      exact List.mem_cons_of_mem _ (ih h)

theorem eq_of_mem_of_snd_nodup {α β : Type _} {m : List (α × β)}
    (hnd : (m.map Prod.snd).Nodup) {p q : α × β}
    (hp : p ∈ m) (hq : q ∈ m) (hsnd : p.2 = q.2) : p = q := by
  induction m with
  | nil => cases hp
  | cons a t ih =>
    rw [List.map_cons, List.nodup_cons] at hnd
    rcases List.mem_cons.mp hp with hp1 | hp1 <;>
      rcases List.mem_cons.mp hq with hq1 | hq1
    · rw [hp1, hq1]
    · exfalso
      apply hnd.1
      rw [show a.2 = q.2 from hp1 ▸ hsnd]
      exact List.mem_map_of_mem _ hq1
    · exfalso
      apply hnd.1
      rw [show a.2 = p.2 from (hq1 ▸ hsnd).symm]
      exact List.mem_map_of_mem _ hp1
    · exact ih hnd.2 hp1 hq1

/-- Under the mapping-bijection invariant (external ids pairwise
distinct), a search returns pairwise-distinct external ids. -/
theorem search_ids_nodup (s : FAISSStore) (q : Vec) (k : Nat)
    (hval : (s.id_map.map Prod.snd).Nodup) :
    ((s.search q k).map Prod.fst).Nodup := by
  unfold FAISSStore.search
  split
  · simp
  · rw [List.map_filterMap]
    have hfun : ∀ p : Nat × ℚ,
        ((s.id_map.lookup p.1).map (fun sid => (sid, p.2))).map Prod.fst =
          s.id_map.lookup p.1 := by
      intro p
      cases s.id_map.lookup p.1 <;> rfl
    rw [List.filterMap_congr (fun p _ => hfun p)]
    -- pairwise-distinct internal ids in the raw scan
    have hfst_score : (scoreAll s.vectors q).map Prod.fst =
        List.range s.vectors.length := by
      unfold scoreAll
      rw [List.map_map]
      exact List.map_id _
    have hnd_sort :
        ((List.insertionSort distLE (scoreAll s.vectors q)).map Prod.fst).Nodup := by
      have hperm := (List.perm_insertionSort distLE (scoreAll s.vectors q)).map Prod.fst
      rw [hperm.nodup_iff, hfst_score]
      exact List.nodup_range _
    have hnd_take :
        ((faissRawSearch s.vectors q k).map Prod.fst).Nodup :=
      List.Nodup.sublist (List.Sublist.map Prod.fst (List.take_sublist _ _))
        hnd_sort
    have hpw : List.Pairwise (fun a b : Nat × ℚ => a.1 ≠ b.1)
        (faissRawSearch s.vectors q k) :=
      (List.pairwise_map).mp hnd_take
    show List.Pairwise _ _
    rw [List.pairwise_filterMap]
    refine hpw.imp ?_
    intro a b hab x hx y hy heq
    rw [Option.mem_def] at hx hy
    subst heq
    have hmx := mem_of_lookup_eq_some hx
    have hmy := mem_of_lookup_eq_some hy
    have hpq : ((a.1, x) : Nat × String) = (b.1, x) :=
      eq_of_mem_of_snd_nodup hval hmx hmy rfl
    exact hab (congrArg (Prod.fst : Nat × String → Nat) hpq)

theorem find?_eq_some_of_ids_nodup {l : List SearchResult}
    (hnd : (l.map (fun r => r.chunk_id)).Nodup) {r : SearchResult}
    (hr : r ∈ l) :
    l.find? (fun x => x.chunk_id == r.chunk_id) = some r := by
  induction l with
  | nil => cases hr
  | cons a t ih =>
    rw [List.map_cons, List.nodup_cons] at hnd
    rcases List.mem_cons.mp hr with h | h
    · subst h
      exact List.find?_cons_of_pos _ (by simp)
    · have hne : (a.chunk_id == r.chunk_id) = false := by
        rw [beq_eq_false_iff_ne]
        intro hEq
        exact hnd.1 (hEq ▸ List.mem_map_of_mem _ h)
      rw [List.find?_cons_of_neg _ (by rw [hne]; exact Bool.false_ne_true)]
      exact ih hnd.2 h

theorem scoreMapLookup_eq {rs : List SearchResult}
    (hnd : (rs.map (fun r => r.chunk_id)).Nodup) {r : SearchResult}
    (hr : r ∈ rs) : scoreMapLookup rs r.chunk_id = some r.score := by
  unfold scoreMapLookup
  have hnd' : (rs.reverse.map (fun r => r.chunk_id)).Nodup := by
    rw [List.map_reverse, List.nodup_reverse]
    exact hnd
  rw [find?_eq_some_of_ids_nodup hnd' (List.mem_reverse.mpr hr)]
  rfl

theorem hydrateChunk_score {db : Database} {cid : String} {sc : ℚ}
    {c : RetrievedChunk} (h : hydrateChunk db cid sc = some c) :
    c.score = sc := by
  unfold hydrateChunk at h
  cases h1 : db.chunks.find? (fun ch => ch.id == cid) with
  | none => rw [h1] at h; cases h
  | some ch =>
    rw [h1, Option.some_bind] at h
    cases h2 : db.documents.find? (fun d => d.id == ch.document_id) with
    | none => rw [h2] at h; cases h
    | some d =>
      rw [h2, Option.map_some'] at h
      cases h
      rfl

/-- With pairwise-distinct hit ids the `score_map` indirection is the
identity: hydration consumes exactly the per-hit scores, in hit order. -/
theorem semanticRetrieve_eq_filterMap (db : Database) (store : FAISSStore)
    (qv : Vec) (k : Nat)
    (hnd : ((store.search qv k).map Prod.fst).Nodup) :
    semanticRetrieve db store qv k =
      (semanticLayerSearch store qv k).filterMap
        (fun r => hydrateChunk db r.chunk_id r.score) := by
  have hnd' : ((semanticLayerSearch store qv k).map
      (fun r => r.chunk_id)).Nodup := by
    unfold semanticLayerSearch
    rw [List.map_map]
    exact hnd
  unfold semanticRetrieve
  split
  next hemp =>
    rw [List.isEmpty_iff.mp hemp]
    rfl
  next hemp =>
    rw [List.filterMap_map]
    refine (List.filterMap_congr ?_).symm
    intro r hr
    show hydrateChunk db r.chunk_id r.score =
      (scoreMapLookup (semanticLayerSearch store qv k) r.chunk_id).bind
        (fun sc => hydrateChunk db r.chunk_id sc)
    rw [scoreMapLookup_eq hnd' hr]
    rfl

theorem semanticRetrieve_length_le (db : Database) (store : FAISSStore)
    (qv : Vec) (k : Nat) :
    (semanticRetrieve db store qv k).length ≤ k := by
  unfold semanticRetrieve
  split
  · simp
  · refine le_trans (List.length_filterMap_le _ _) ?_
    rw [List.length_map]
    unfold semanticLayerSearch
    rw [List.length_map]
    exact search_length_le store qv k

theorem semanticRetrieve_pairwise (db : Database) (store : FAISSStore)
    (qv : Vec) (k : Nat)
    (hnd : ((store.search qv k).map Prod.fst).Nodup) :
    List.Pairwise (fun a b : RetrievedChunk => a.score ≤ b.score)
      (semanticRetrieve db store qv k) := by
  rw [semanticRetrieve_eq_filterMap db store qv k hnd]
  rw [List.pairwise_filterMap]
  have hp : List.Pairwise (fun a b : SearchResult => a.score ≤ b.score)
      (semanticLayerSearch store qv k) := by
    unfold semanticLayerSearch
    rw [List.pairwise_map]
    exact search_pairwise_le store qv k
  refine hp.imp ?_
  intro a b hab x hx y hy
  rw [Option.mem_def] at hx hy
  rw [hydrateChunk_score hx, hydrateChunk_score hy]
  exact hab

/-- C8 (amended): for every *non-empty* document scope `S`, hybrid
retrieval returns only chunks with `documentId ∈ S`, is a sublist of the
unfiltered retrieval (hence preserves its rank order), returns at most
`k` results (possibly fewer), and its scores are in the ascending-distance
order of the underlying index search — assuming the index mapping's
external ids are pairwise distinct (the bijection invariant), so that hit
scores are unambiguous.  (For the *empty* scope list the claim fails: the
code treats `[]` as "no scope" and skips the filter entirely — see the
counterexample.) -/
theorem c8_amended_scope_filter (db : Database) (store : FAISSStore)
    (qv : Vec) (k : Nat) (dids : List String) (hne : dids ≠ [])
    (hval : (store.id_map.map Prod.snd).Nodup) :
    (∀ c ∈ hybridSearch db store qv k (some dids), c.document_id ∈ dids) ∧
    (hybridSearch db store qv k (some dids)).Sublist
      (semanticRetrieve db store qv k) ∧
    (hybridSearch db store qv k (some dids)).length ≤ k ∧
    List.Pairwise (fun a b : RetrievedChunk => a.score ≤ b.score)
      (hybridSearch db store qv k (some dids)) := by
  have hnd := search_ids_nodup store qv k hval
  have hemp : dids.isEmpty = false := by
    cases hd : dids with
    | nil => exact absurd hd hne
    | cons a t => rfl
  have hhyb : hybridSearch db store qv k (some dids) =
      (semanticRetrieve db store qv k).filter
        (fun r => dids.contains r.document_id) := by
    show (if dids.isEmpty = true then semanticRetrieve db store qv k
          else (semanticRetrieve db store qv k).filter
            (fun r => dids.contains r.document_id)) =
      (semanticRetrieve db store qv k).filter
        (fun r => dids.contains r.document_id)
    rw [hemp]
    simp
  rw [hhyb]
  refine ⟨?_, List.filter_sublist _, ?_, ?_⟩
  · intro c hc
    have := List.of_mem_filter hc
    simpa using this
  · exact le_trans (List.length_filter_le _ _)
      (semanticRetrieve_length_le db store qv k)
  · exact List.Pairwise.sublist (List.filter_sublist _)
      (semanticRetrieve_pairwise db store qv k hnd)

/-- Counterexample to C8 as stated: with the scope `S = []` (an explicit,
representable scope value), the post-filter is skipped entirely — the
retrieval returns a chunk whose `documentId` `"d1"` is not in `S`. -/
theorem c8_counterexample :
    (hybridSearch
      { chunks := [{ id := "c1", document_id := "d1", text := "t",
                     chunk_index := 0 }],
        documents := [{ id := "d1", filename := "f.pdf" }] }
      { dimension := 1, vectors := [[0]], id_map := [(0, "c1")] }
      [0] 5 (some [])).map (fun c => c.document_id) = ["d1"] ∧
    ("d1" : String) ∉ ([] : List String) := by
  constructor
  · norm_num [hybridSearch, semanticRetrieve, semanticLayerSearch,
      FAISSStore.search, faissRawSearch, scoreAll, l2sq,
      List.insertionSort, List.orderedInsert, List.range_succ,
      List.lookup, List.filterMap_cons, List.filterMap_nil, Option.map,
      scoreMapLookup, List.find?, hydrateChunk]
  · simp

/-- Witness for C8 (amended): a concrete non-empty scope `["d2"]` filters
the sole `"d1"` hit out, leaving a (vacuously ordered) sublist of the
unfiltered retrieval. -/
theorem c8_witness :
    (hybridSearch
      { chunks := [{ id := "c1", document_id := "d1", text := "t",
                     chunk_index := 0 }],
        documents := [{ id := "d1", filename := "f.pdf" }] }
      { dimension := 1, vectors := [[0]], id_map := [(0, "c1")] }
      [0] 5 (some ["d2"])).Sublist
      (semanticRetrieve
        { chunks := [{ id := "c1", document_id := "d1", text := "t",
                       chunk_index := 0 }],
          documents := [{ id := "d1", filename := "f.pdf" }] }
        { dimension := 1, vectors := [[0]], id_map := [(0, "c1")] }
        [0] 5) :=
  (c8_amended_scope_filter
    { chunks := [{ id := "c1", document_id := "d1", text := "t",
                   chunk_index := 0 }],
      documents := [{ id := "d1", filename := "f.pdf" }] }
    { dimension := 1, vectors := [[0]], id_map := [(0, "c1")] }
    [0] 5 ["d2"] (by decide) (by decide)).2.1

/-! ## Claim C9 -/

/-- A string that is not blank is in particular non-empty. -/
theorem ne_empty_of_not_blank {t : String} (h : isBlank t = false) :
    t ≠ "" := by
  intro he
  rw [he] at h
  cases h

/-- Every string handed to the batched collaborator call after
sanitisation is non-empty. -/
theorem sanitizeBatch_ne_empty (b : List String) :
    ∀ t ∈ sanitizeBatch b, t ≠ "" := by
  intro t ht
  obtain ⟨t0, _, rfl⟩ := List.mem_map.mp ht
  by_cases hb : isBlank t0 = true
  · rw [if_pos hb]
    decide
  · rw [if_neg hb]
    exact ne_empty_of_not_blank (Bool.not_eq_true _ ▸ hb)

theorem generate_embedding_calls (oracle : String → Except String Vec)
    (t : String) :
    ∀ c ∈ (generate_embedding oracle t).2, callNeverBlank c := by
  intro c hc
  unfold generate_embedding at hc
  by_cases hb : isBlank t = true
  · rw [if_pos hb] at hc
    cases hc
  · rw [if_neg hb] at hc
    have hb' : isBlank t = false := Bool.not_eq_true _ ▸ hb
    cases ho : oracle t with
    | ok v =>
      rw [ho] at hc
      rcases List.mem_singleton.mp hc with rfl
      exact hb'
    | error e =>
      rw [ho] at hc
      rcases List.mem_singleton.mp hc with rfl
      exact hb'

theorem fallbackSingles_calls (oracleS : String → Except String Vec)
    (dim : Nat) :
    ∀ (ts : List String), ∀ c ∈ (fallbackSingles oracleS dim ts).2,
      callNeverBlank c := by
  intro ts
  induction ts with
  | nil => intro c hc; cases hc
  | cons t ts ih =>
    intro c hc
    rw [fallbackSingles] at hc
    by_cases hb : isBlank t = true
    · rw [if_pos hb] at hc
      cases hrec : fallbackSingles oracleS dim ts with
      | mk r calls =>
        rw [hrec] at hc
        cases r with
        | ok vs => exact ih c (by rw [hrec]; exact hc)
        | error e => exact ih c (by rw [hrec]; exact hc)
    · rw [if_neg hb] at hc
      cases hemb : generate_embedding oracleS t with
      | mk r calls =>
        rw [hemb] at hc
        cases r with
        | ok v =>
          cases hrec : fallbackSingles oracleS dim ts with
          | mk r' calls' =>
            rw [hrec] at hc
            cases r' with
            | ok vs =>
              rcases List.mem_append.mp hc with h | h
              · exact generate_embedding_calls oracleS t c (by rw [hemb]; exact h)
              · exact ih c (by rw [hrec]; exact h)
            | error e =>
              rcases List.mem_append.mp hc with h | h
              · exact generate_embedding_calls oracleS t c (by rw [hemb]; exact h)
              · exact ih c (by rw [hrec]; exact h)
        | error e =>
          exact generate_embedding_calls oracleS t c (by rw [hemb]; exact hc)

theorem processBatch_calls (oracleB : List String → Except String (List Vec))
    (oracleS : String → Except String Vec) (dim : Nat) (b : List String) :
    ∀ c ∈ (processBatch oracleB oracleS dim b).2, callNeverBlank c := by
  intro c hc
  unfold processBatch at hc
  cases ho : oracleB (sanitizeBatch b) with
  | ok embs =>
    rw [ho] at hc
    rcases List.mem_singleton.mp hc with rfl
    exact sanitizeBatch_ne_empty b
  | error e =>
    rw [ho] at hc
    cases hrec : fallbackSingles oracleS dim b with
    | mk r calls =>
      rw [hrec] at hc
      rcases List.mem_cons.mp hc with h | h
      · subst h
        exact sanitizeBatch_ne_empty b
      · exact fallbackSingles_calls oracleS dim b c (by rw [hrec]; exact h)

theorem runBatches_calls (oracleB : List String → Except String (List Vec))
    (oracleS : String → Except String Vec) (dim : Nat) :
    ∀ (bs : List (List String)),
      ∀ c ∈ (runBatches oracleB oracleS dim bs).2, callNeverBlank c := by
  intro bs
  induction bs with
  | nil => intro c hc; cases hc
  | cons b bs ih =>
    intro c hc
    rw [runBatches] at hc
    cases hpb : processBatch oracleB oracleS dim b with
    | mk r calls =>
      rw [hpb] at hc
      cases r with
      | ok embs =>
        cases hrec : runBatches oracleB oracleS dim bs with
        | mk r' calls' =>
          rw [hrec] at hc
          cases r' with
          | ok rest =>
            rcases List.mem_append.mp hc with h | h
            · exact processBatch_calls oracleB oracleS dim b c (by rw [hpb]; exact h)
            · exact ih c (by rw [hrec]; exact h)
          | error e =>
            rcases List.mem_append.mp hc with h | h
            · exact processBatch_calls oracleB oracleS dim b c (by rw [hpb]; exact h)
            · exact ih c (by rw [hrec]; exact h)
      | error e =>
        exact processBatch_calls oracleB oracleS dim b c (by rw [hpb]; exact hc)

/-- C9: a blank (empty or whitespace-only) input to the single-text
embedding operations is rejected with a validation error *before any
collaborator call* — the result carries an empty call trace, identical for
every oracle, hence no retry; the batch operation substitutes the
non-empty placeholder `" "` for blank elements, so that every collaborator
call in its trace — batched or single-text fallback — carries only
non-empty (for single calls: non-blank) input. -/
theorem c9_blank_embedding_inputs :
    (∀ (oracle : String → Except String Vec) (text : String),
      isBlank text = true →
      generate_embedding oracle text =
        (.error (.validation "Cannot generate embedding for empty text"), []) ∧
      generate_query_embedding oracle text =
        (.error (.validation "Cannot generate embedding for empty query"), [])) ∧
    (∀ (oracleB : List String → Except String (List Vec))
       (oracleS : String → Except String Vec) (dim : Nat)
       (texts : List String) (bsz : Nat),
      ∀ c ∈ (generate_embeddings_batch oracleB oracleS dim texts bsz).2,
        callNeverBlank c) := by
  constructor
  · intro oracle text h
    constructor
    · unfold generate_embedding
      rw [if_pos h]
    · unfold generate_query_embedding
      rw [if_pos h]
  · intro oracleB oracleS dim texts bsz c hc
    unfold generate_embeddings_batch at hc
    by_cases hemp : texts.isEmpty = true
    · rw [if_pos hemp] at hc
      cases hc
    · rw [if_neg hemp] at hc
      exact runBatches_calls oracleB oracleS dim (texts.toChunks bsz) c hc

/-- Witness for C9: the whitespace-only input `" \t "` is rejected by the
single-text operation with an empty call trace, and a concrete batch over
`["", "hello"]` calls the collaborator with `[" ", "hello"]` — no blank
element reaches it. -/
theorem c9_witness :
    generate_embedding (fun _ => .ok [1]) " \t " =
      (.error (.validation "Cannot generate embedding for empty text"), []) ∧
    ((generate_embeddings_batch (fun ts => .ok (ts.map (fun _ => [1])))
        (fun _ => .ok [1]) 4 ["", "hello"] 100).2.all
      (fun c => match c with
        | .batchCall ts => ts.all (fun t => !(t == ""))
        | .singleCall t => !(isBlank t))) = true := by
  constructor
  · exact (c9_blank_embedding_inputs.1 (fun _ => .ok [1]) " \t "
      (by decide)).1
  · decide

end DueDiligence
